import Mathlib

/-!
A verification development for the incremental Strava sync program in
`src/main.rs`.  The Rust code is shallowly embedded: pure data types become
Lean structures (f64 as Float, i64/i32 as Int, u32/usize as Nat), the
pagination `while` loop becomes structural recursion on the remaining page
budget, and filesystem / network effects become explicit environment and
state records threaded through the enrichment fold.
-/

/-- One recorded exercise session, as deserialized from the activities
endpoint (struct `Activity`, src/main.rs lines 14-45). -/
structure Activity where
  id : Int
  name : String
  distance : Float
  moving_time : Int
  elapsed_time : Int
  total_elevation_gain : Float
  activity_type : String
  sport_type : String
  start_date : String
  start_date_local : String
  timezone : String
  trainer : Bool
  commute : Bool
  average_speed : Float
  max_speed : Float
  average_watts : Option Float
  weighted_average_watts : Option Float
  max_watts : Option Float
  kilojoules : Option Float
  device_watts : Option Bool
  has_heartrate : Bool
  average_heartrate : Option Float
  max_heartrate : Option Float
  average_cadence : Option Float
  suffer_score : Option Float
  kudos_count : Int
  achievement_count : Int
  pr_count : Int

/-- Per-activity sensor series (struct `ActivityStreams`, src/main.rs
lines 47-55): six independently optional sequences. -/
structure ActivityStreams where
  time : Option (List Int)
  watts : Option (List Float)
  heartrate : Option (List Int)
  cadence : Option (List Int)
  velocity_smooth : Option (List Float)
  altitude : Option (List Float)

/-- Combined activity with detailed stream data (struct
`ActivityWithStreams`, src/main.rs lines 58-63). -/
structure ActivityWithStreams where
  activity : Activity
  streams : Option ActivityStreams

/-- Lightweight projection stored in the index (struct `ActivitySummary`,
src/main.rs lines 72-81). -/
structure ActivitySummary where
  id : Int
  name : String
  start_date : String
  distance : Float
  moving_time : Int
  average_watts : Option Float
  average_heartrate : Option Float

/-- Index file contents (struct `ActivityIndex`, src/main.rs lines 66-70). -/
structure ActivityIndex where
  last_updated : String
  activities : List ActivitySummary

/-- Projection of an `Activity` to an `ActivitySummary`, as built inline by
`ActivityIndex::add_activity` (src/main.rs lines 106-114). -/
def mkSummary (activity : Activity) : ActivitySummary :=
  { id := activity.id
    name := activity.name
    start_date := activity.start_date
    distance := activity.distance
    moving_time := activity.moving_time
    average_watts := activity.average_watts
    average_heartrate := activity.average_heartrate }

/-- Comparator used by the sort in `add_activity` (src/main.rs line 116):
`sort_by(|a, b| b.start_date.cmp(&a.start_date))`, i.e. descending by
start date.  Rust's `sort_by` is a stable sort, matched by `mergeSort`. -/
def summaryDescLe (a b : ActivitySummary) : Bool :=
  decide (b.start_date ≤ a.start_date)

/-- `ActivityIndex::add_activity` (src/main.rs lines 105-117): project to a
summary, insert at position 0, then stably sort the whole sequence
descending by `start_date`. -/
def ActivityIndex.add_activity (idx : ActivityIndex) (activity : Activity) :
    ActivityIndex :=
  { idx with
      activities := (mkSummary activity :: idx.activities).mergeSort summaryDescLe }

/-- `ActivityIndex::get_known_ids` (src/main.rs lines 101-103): the ids
currently recorded in the index (the Rust `HashSet` is modelled as the list
of ids; only membership is ever used). -/
def ActivityIndex.get_known_ids (idx : ActivityIndex) : List Int :=
  idx.activities.map (fun a => a.id)

/-- The body of the per-page `for` loop of the pagination phase
(src/main.rs lines 174-189): scan activities in order; at the first id
already known stop (returning `true` for `found_existing`); otherwise
collect the activity iff its `sport_type` is `"VirtualRide"`. -/
def scanActivities (known : List Int) : List Activity → List Activity × Bool
  | [] => ([], false)
  | activity :: rest =>
      if activity.id ∈ known then ([], true)
      else if activity.sport_type = "VirtualRide" then
        let r := scanActivities known rest
        (activity :: r.1, r.2)
      else scanActivities known rest

/-- The candidates contributed by a single page: the prefix of the page
strictly before the first known id, filtered to `"VirtualRide"`. -/
def pageCandidates (known : List Int) (acts : List Activity) : List Activity :=
  (acts.takeWhile (fun a => !decide (a.id ∈ known))).filter
    (fun a => decide (a.sport_type = "VirtualRide"))

/-- Whether a page contains some already-known id (this is exactly when the
scan sets `found_existing`). -/
def pageFound (known : List Int) (acts : List Activity) : Bool :=
  acts.any (fun a => decide (a.id ∈ known))

theorem scanActivities_fst (known : List Int) (acts : List Activity) :
    (scanActivities known acts).1 = pageCandidates known acts := by
  induction acts with
  | nil => simp [scanActivities, pageCandidates]
  | cons a rest ih =>
      by_cases hk : a.id ∈ known
      · simp [scanActivities, pageCandidates, hk]
      · by_cases hs : a.sport_type = "VirtualRide"
        · simp [scanActivities, pageCandidates, hk, hs, List.takeWhile_cons,
            List.filter_cons] at ih ⊢
          exact ih
        · simp [scanActivities, pageCandidates, hk, hs, List.takeWhile_cons,
            List.filter_cons] at ih ⊢
          exact ih

theorem scanActivities_snd (known : List Int) (acts : List Activity) :
    (scanActivities known acts).2 = pageFound known acts := by
  induction acts with
  | nil => simp [scanActivities, pageFound]
  | cons a rest ih =>
      by_cases hk : a.id ∈ known
      · simp [scanActivities, pageFound, hk]
      · by_cases hs : a.sport_type = "VirtualRide"
        · simp [scanActivities, pageFound, hk, hs] at ih ⊢
          exact ih
        · simp [scanActivities, pageFound, hk, hs] at ih ⊢
          exact ih

/-- Claim C1: an activity of a scanned page becomes an enrichment candidate
iff it lies in the prefix of the page before the first known id (i.e. it is
actually scanned with its id not in the known-id set) and its `sport_type`
equals the fixed filter string `"VirtualRide"`. -/
theorem scan_collects_iff (known : List Int) (acts : List Activity) :
    (scanActivities known acts).1 = pageCandidates known acts
    ∧ ∀ a : Activity, a ∈ (scanActivities known acts).1 ↔
        a ∈ acts.takeWhile (fun a => !decide (a.id ∈ known))
        ∧ ¬(a.id ∈ known) ∧ a.sport_type = "VirtualRide" := by
  refine ⟨scanActivities_fst known acts, fun a => ?_⟩
  rw [scanActivities_fst known acts]
  unfold pageCandidates
  constructor
  · intro h
    have hmem := List.mem_filter.mp h
    have hp := List.mem_takeWhile_imp hmem.1
    simp only [Bool.not_eq_true', decide_eq_false_iff_not] at hp
    refine ⟨hmem.1, hp, ?_⟩
    have := hmem.2
    simpa using this
  · intro h
    exact List.mem_filter.mpr ⟨h.1, by simpa using h.2.2⟩

/-- Claim C4: after any `add_activity` call, whatever the prior contents of
the index and whatever activity is inserted, the summary sequence is sorted
non-increasing by the `start_date` string. -/
theorem add_activity_sorted (idx : ActivityIndex) (activity : Activity) :
    (idx.add_activity activity).activities.Pairwise
      (fun x y => y.start_date ≤ x.start_date) := by
  have htrans : ∀ a b c : ActivitySummary, summaryDescLe a b = true →
      summaryDescLe b c = true → summaryDescLe a c = true := by
    intro a b c hab hbc
    simp only [summaryDescLe, decide_eq_true_eq] at hab hbc ⊢
    exact le_trans hbc hab
  have htotal : ∀ a b : ActivitySummary,
      (summaryDescLe a b || summaryDescLe b a) = true := by
    intro a b
    simp only [summaryDescLe, Bool.or_eq_true, decide_eq_true_eq]
    exact le_total b.start_date a.start_date
  have h := List.sorted_mergeSort htrans htotal
    (mkSummary activity :: idx.activities)
  refine (List.Pairwise.imp ?_ h)
  intro a b hab
  simpa [summaryDescLe] using hab

/-- Why the pagination loop stopped (the three `break`/exit paths of the
`while` loop, src/main.rs lines 162-198). -/
inductive StopReason where
  | foundExisting
  | emptyPage
  | pageLimit
deriving DecidableEq

/-- Observable outcome of the pagination phase: the collected candidates
(`new_zwift_activities`), why the loop stopped, the page numbers actually
requested (in request order), and `total_fetched`. -/
structure LoopResult where
  new_zwift_activities : List Activity
  reason : StopReason
  requests : List Nat
  total_fetched : Nat

/-- The pagination `while` loop of src/main.rs lines 162-198, recursing on
the remaining page budget (`fuel = 6 - page`; the loop ends an iteration
with `page += 1; if page > 5 break`, so an iteration starts only with
`page ≤ 5`).  `pages` abstracts `fetch_activities_page` on the success
path (a fetch error aborts the whole run via `?`). -/
def syncLoopAux (pages : Nat → List Activity) (known : List Int) :
    Nat → Nat → List Activity → List Nat → Nat → LoopResult
  | _, 0, acc, reqs, tot =>
      { new_zwift_activities := acc, reason := .pageLimit,
        requests := reqs, total_fetched := tot }
  | page, fuel + 1, acc, reqs, tot =>
      let acts := pages page
      if acts.isEmpty then
        { new_zwift_activities := acc, reason := .emptyPage,
          requests := reqs ++ [page], total_fetched := tot }
      else
        let r := scanActivities known acts
        if r.2 then
          { new_zwift_activities := acc ++ r.1, reason := .foundExisting,
            requests := reqs ++ [page], total_fetched := tot + acts.length }
        else
          syncLoopAux pages known (page + 1) fuel (acc ++ r.1)
            (reqs ++ [page]) (tot + acts.length)

/-- The whole pagination phase: `page` starts at 1 with an empty candidate
list (src/main.rs lines 155-159). -/
def syncLoop (pages : Nat → List Activity) (known : List Int) : LoopResult :=
  syncLoopAux pages known 1 5 [] [] 0

theorem syncLoopAux_spec (pages : Nat → List Activity) (known : List Int) :
    ∀ (fuel page : Nat) (acc : List Activity) (reqs : List Nat) (tot : Nat),
      ∃ (k : Nat) (d : List Activity),
        k ≤ fuel
        ∧ (syncLoopAux pages known page fuel acc reqs tot).requests
            = reqs ++ List.range' page k
        ∧ (syncLoopAux pages known page fuel acc reqs tot).new_zwift_activities
            = acc ++ d
        ∧ d.Sublist ((List.range' page k).flatMap pages)
        ∧ ∀ a ∈ d, ¬(a.id ∈ known) := by
  intro fuel
  induction fuel with
  | zero =>
      intro page acc reqs tot
      exact ⟨0, [], Nat.le_refl 0, by simp [syncLoopAux],
        by simp [syncLoopAux], by simp, by simp⟩
  | succ n ih =>
      intro page acc reqs tot
      by_cases hemp : (pages page).isEmpty
      · refine ⟨1, [], by omega, ?_, ?_, by simp, by simp⟩
        · simp [syncLoopAux, hemp, List.range'_one]
        · simp [syncLoopAux, hemp]
      · by_cases hfound : (scanActivities known (pages page)).2
        · refine ⟨1, (scanActivities known (pages page)).1, by omega, ?_, ?_, ?_, ?_⟩
          · simp [syncLoopAux, hemp, hfound, List.range'_one]
          · simp [syncLoopAux, hemp, hfound]
          · rw [scanActivities_fst]
            unfold pageCandidates
            simp only [List.range'_one, List.flatMap_cons, List.flatMap_nil,
              List.append_nil]
            exact ((List.filter_sublist _).trans (List.takeWhile_sublist _))
          · intro a ha
            rw [scanActivities_fst] at ha
            have hmem := List.mem_filter.mp ha
            have hp := List.mem_takeWhile_imp hmem.1
            simpa using hp
        · have hemp' : (pages page).isEmpty = false := by
            simpa using hemp
          have hfound' : (scanActivities known (pages page)).2 = false := by
            simpa using hfound
          have hunfold : syncLoopAux pages known page (n + 1) acc reqs tot
              = syncLoopAux pages known (page + 1) n
                  (acc ++ (scanActivities known (pages page)).1)
                  (reqs ++ [page]) (tot + (pages page).length) := by
            simp [syncLoopAux, hemp', hfound']
          obtain ⟨k, d, hk, hreq, hnew, hsub, hnotin⟩ :=
            ih (page + 1) (acc ++ (scanActivities known (pages page)).1)
              (reqs ++ [page]) (tot + (pages page).length)
          refine ⟨k + 1, (scanActivities known (pages page)).1 ++ d,
            by omega, ?_, ?_, ?_, ?_⟩
          · rw [hunfold, hreq, List.range'_succ]
            simp
          · rw [hunfold, hnew, List.append_assoc]
          · rw [List.range'_succ, List.flatMap_cons]
            refine List.Sublist.append ?_ hsub
            rw [scanActivities_fst]
            exact ((List.filter_sublist _).trans (List.takeWhile_sublist _))
          · intro a ha
            rcases List.mem_append.mp ha with h | h
            · rw [scanActivities_fst] at h
              have hmem := List.mem_filter.mp h
              have hp := List.mem_takeWhile_imp hmem.1
              simpa using hp
            · exact hnotin a h

/-- Claim C9: the pagination loop always terminates after at most 5 page
fetches; the pages requested are exactly 1, 2, ... up to the page at which a
stop condition fired, never more than five of them. -/
theorem pagination_terminates_within_five (pages : Nat → List Activity)
    (known : List Int) :
    (syncLoop pages known).requests
      = List.range' 1 (syncLoop pages known).requests.length
    ∧ (syncLoop pages known).requests.length ≤ 5 := by
  obtain ⟨k, d, hk, hreq, -, -, -⟩ := syncLoopAux_spec pages known 5 1 [] [] 0
  unfold syncLoop
  constructor
  · rw [hreq]
    simp [List.length_range']
  · rw [hreq]
    simpa [List.length_range'] using hk

theorem syncLoopAux_found (pages : Nat → List Activity) (known : List Int)
    (p : Nat) (hfound : pageFound known (pages p) = true) :
    ∀ (d fuel page : Nat) (acc : List Activity) (reqs : List Nat) (tot : Nat),
      page + d = p → d < fuel →
      (∀ q, page ≤ q → q < p →
        (pages q).isEmpty = false ∧ pageFound known (pages q) = false) →
      (syncLoopAux pages known page fuel acc reqs tot).reason = .foundExisting
      ∧ (syncLoopAux pages known page fuel acc reqs tot).requests
          = reqs ++ List.range' page (d + 1)
      ∧ (syncLoopAux pages known page fuel acc reqs tot).new_zwift_activities
          = acc ++ (List.range' page (d + 1)).flatMap
              (fun q => pageCandidates known (pages q)) := by
  intro d
  induction d with
  | zero =>
      intro fuel page acc reqs tot hpage hfuel hbefore
      have hpg : page = p := by omega
      subst hpg
      obtain ⟨m, rfl⟩ : ∃ m, fuel = m + 1 := ⟨fuel - 1, by omega⟩
      have hne : (pages page).isEmpty = false := by
        cases h : (pages page).isEmpty
        · rfl
        · rw [List.isEmpty_iff] at h
          rw [h] at hfound
          simp [pageFound] at hfound
      have hr2 : (scanActivities known (pages page)).2 = true := by
        rw [scanActivities_snd]
        exact hfound
      refine ⟨?_, ?_, ?_⟩
      · simp [syncLoopAux, hne, hr2]
      · simp [syncLoopAux, hne, hr2, List.range'_one]
      · simp [syncLoopAux, hne, hr2, List.range'_one, scanActivities_fst]
  | succ d ih =>
      intro fuel page acc reqs tot hpage hfuel hbefore
      obtain ⟨m, rfl⟩ : ∃ m, fuel = m + 1 := ⟨fuel - 1, by omega⟩
      have hlt : page < p := by omega
      have hthis := hbefore page (Nat.le_refl page) hlt
      have hne : (pages page).isEmpty = false := hthis.1
      have hr2 : (scanActivities known (pages page)).2 = false := by
        rw [scanActivities_snd]
        exact hthis.2
      have hunfold : syncLoopAux pages known page (m + 1) acc reqs tot
          = syncLoopAux pages known (page + 1) m
              (acc ++ (scanActivities known (pages page)).1)
              (reqs ++ [page]) (tot + (pages page).length) := by
        simp [syncLoopAux, hne, hr2]
      obtain ⟨ihr, ihq, ihn⟩ := ih m (page + 1)
        (acc ++ (scanActivities known (pages page)).1)
        (reqs ++ [page]) (tot + (pages page).length)
        (by omega) (by omega)
        (fun q hq1 hq2 => hbefore q (by omega) hq2)
      refine ⟨?_, ?_, ?_⟩
      · rw [hunfold]
        exact ihr
      · rw [hunfold, ihq]
        simp [List.range'_succ]
      · rw [hunfold, ihn, scanActivities_fst, List.append_assoc]
        simp [List.range'_succ, List.flatMap_cons, List.append_assoc]

/-- Claim C2: if page `p` (with every earlier page nonempty and free of
known ids) is the first page containing a known id, the run stops with
`FoundExisting`: exactly pages 1..p are requested and the candidates are the
per-page prefixes before the first known id (filtered to VirtualRide) — no
activity positioned after the first known occurrence contributes, and no
later page is fetched. -/
theorem pagination_halts_at_first_known (pages : Nat → List Activity)
    (known : List Int) (p : Nat) (hp1 : 1 ≤ p) (hp5 : p ≤ 5)
    (hbefore : ∀ q, 1 ≤ q → q < p →
      (pages q).isEmpty = false ∧ pageFound known (pages q) = false)
    (hfound : pageFound known (pages p) = true) :
    (syncLoop pages known).reason = .foundExisting
    ∧ (syncLoop pages known).requests = List.range' 1 p
    ∧ (syncLoop pages known).new_zwift_activities
        = (List.range' 1 p).flatMap (fun q => pageCandidates known (pages q)) := by
  have h := syncLoopAux_found pages known p hfound (p - 1) 5 1 [] [] 0
    (by omega) (by omega) (fun q h1 h2 => hbefore q h1 h2)
  have hp : p - 1 + 1 = p := by omega
  rw [hp] at h
  unfold syncLoop
  simpa using h

/-- Helper for the concrete instantiations: an `Activity` whose id, sport
type and start date vary, every other field fixed. -/
def mkAct (id : Int) (sport : String) (date : String) : Activity :=
  { id := id, name := ("act"), distance := 0, moving_time := 0,
    elapsed_time := 0, total_elevation_gain := 0, activity_type := sport,
    sport_type := sport, start_date := date, start_date_local := date,
    timezone := ("UTC"), trainer := true, commute := false,
    average_speed := 0, max_speed := 0, average_watts := none,
    weighted_average_watts := none, max_watts := none, kilojoules := none,
    device_watts := none, has_heartrate := false, average_heartrate := none,
    max_heartrate := none, average_cadence := none, suffer_score := none,
    kudos_count := 0, achievement_count := 0, pr_count := 0 }

/-- Page oracle for the C2 instantiation: page 1 returns ids
105, 104, 100, 99 (newest first), all VirtualRide; other pages empty. -/
def pagesC2 : Nat → List Activity
  | 1 => [mkAct 105 ("VirtualRide") ("2024-05-01"),
          mkAct 104 ("VirtualRide") ("2024-04-01"),
          mkAct 100 ("VirtualRide") ("2024-03-01"),
          mkAct 99 ("VirtualRide") ("2024-02-01")]
  | _ => []

/-- Claim C2 witness: with id 100 already known, the run stops on page 1
with `FoundExisting`, requesting only page 1 and collecting only the prefix
before id 100. -/
theorem pagination_halts_at_first_known_witness :
    (syncLoop pagesC2 [100]).reason = .foundExisting
    ∧ (syncLoop pagesC2 [100]).requests = List.range' 1 1
    ∧ (syncLoop pagesC2 [100]).new_zwift_activities
        = (List.range' 1 1).flatMap (fun q => pageCandidates [100] (pagesC2 q)) :=
  pagination_halts_at_first_known pagesC2 [100] 1 (by decide) (by decide)
    (fun q h1 h2 => absurd (Nat.lt_of_lt_of_le h2 h1) (Nat.lt_irrefl q))
    (by decide)

/-- Environment of the enrichment phase (src/main.rs lines 205-256):
the outcome of `fetch_activity_streams` for each id, and which detail files
`data/activities/{id}.json` existed on disk before the run. -/
structure EnrichEnv where
  streamsResult : Int → Except String ActivityStreams
  preExisting : Int → Bool

/-- State threaded through the enrichment `for` loop: the in-memory index,
the detail files written by this run (in write order, src/main.rs
`save_activity_file`), and the ids for which a streams fetch was issued. -/
structure EnrichState where
  index : ActivityIndex
  written : List (Int × ActivityWithStreams)
  streamFetches : List Int

/-- `activity_file_exists` (src/main.rs lines 128-130) as seen mid-run: a
detail file exists iff it pre-existed the run or was written earlier in this
run. -/
def activity_file_exists (env : EnrichEnv) (st : EnrichState) (id : Int) :
    Bool :=
  env.preExisting id || st.written.any (fun w => w.1 == id)

/-- One iteration of the enrichment loop (src/main.rs lines 208-255): skip
the fetch and the write when the detail file already exists but still add to
the index; otherwise fetch streams and persist `streams = some` on success
or `streams = none` on failure, adding to the index in every branch. -/
def enrichStep (env : EnrichEnv) (st : EnrichState) (activity : Activity) :
    EnrichState :=
  if activity_file_exists env st activity.id then
    { st with index := st.index.add_activity activity }
  else
    match env.streamsResult activity.id with
    | .ok streams =>
        { index := st.index.add_activity activity
          written := st.written ++ [(activity.id,
            ActivityWithStreams.mk activity (some streams))]
          streamFetches := st.streamFetches ++ [activity.id] }
    | .error _ =>
        { index := st.index.add_activity activity
          written := st.written ++ [(activity.id,
            ActivityWithStreams.mk activity none)]
          streamFetches := st.streamFetches ++ [activity.id] }

/-- The whole enrichment loop over the candidate list. -/
def enrichAll (env : EnrichEnv) (st : EnrichState) (cands : List Activity) :
    EnrichState :=
  cands.foldl (enrichStep env) st

theorem add_activity_ids_perm (idx : ActivityIndex) (a : Activity) :
    (idx.add_activity a).get_known_ids.Perm (a.id :: idx.get_known_ids) := by
  unfold ActivityIndex.add_activity ActivityIndex.get_known_ids
  have h := (List.mergeSort_perm (mkSummary a :: idx.activities)
    summaryDescLe).map (fun s => s.id)
  simpa [mkSummary] using h

theorem enrichStep_index (env : EnrichEnv) (st : EnrichState) (a : Activity) :
    (enrichStep env st a).index = st.index.add_activity a := by
  by_cases hex : activity_file_exists env st a.id
  · simp [enrichStep, hex]
  · cases hres : env.streamsResult a.id with
    | ok s => simp [enrichStep, hex, hres]
    | error e => simp [enrichStep, hex, hres]

theorem enrichAll_written_mono (env : EnrichEnv) :
    ∀ (l : List Activity) (st : EnrichState),
      ∃ (tw : List (Int × ActivityWithStreams)) (tf : List Int),
        (enrichAll env st l).written = st.written ++ tw
        ∧ (enrichAll env st l).streamFetches = st.streamFetches ++ tf
        ∧ (∀ w ∈ tw, env.preExisting w.1 = false
            ∧ w.1 ∈ l.map (fun a => a.id))
        ∧ (∀ i ∈ tf, env.preExisting i = false
            ∧ i ∈ l.map (fun a => a.id)) := by
  intro l
  induction l with
  | nil =>
      intro st
      exact ⟨[], [], by simp [enrichAll], by simp [enrichAll],
        by simp, by simp⟩
  | cons a rest ih =>
      intro st
      obtain ⟨tw, tf, hw, hf, hpw, hpf⟩ := ih (enrichStep env st a)
      have hstep : enrichAll env st (a :: rest)
          = enrichAll env (enrichStep env st a) rest := rfl
      by_cases hex : activity_file_exists env st a.id
      · have hsw : (enrichStep env st a).written = st.written := by
          simp [enrichStep, hex]
        have hsf : (enrichStep env st a).streamFetches = st.streamFetches := by
          simp [enrichStep, hex]
        refine ⟨tw, tf, ?_, ?_, ?_, ?_⟩
        · rw [hstep, hw, hsw]
        · rw [hstep, hf, hsf]
        · intro w hwm
          exact ⟨(hpw w hwm).1, by simpa using Or.inr (hpw w hwm).2⟩
        · intro i him
          exact ⟨(hpf i him).1, by simpa using Or.inr (hpf i him).2⟩
      · have hx : env.preExisting a.id = false := by
          unfold activity_file_exists at hex
          simp only [Bool.or_eq_true, not_or, Bool.not_eq_true] at hex
          exact hex.1
        cases hres : env.streamsResult a.id with
        | ok s =>
            have hsw : (enrichStep env st a).written
                = st.written ++ [(a.id, ActivityWithStreams.mk a (some s))] := by
              simp [enrichStep, hex, hres]
            have hsf : (enrichStep env st a).streamFetches
                = st.streamFetches ++ [a.id] := by
              simp [enrichStep, hex, hres]
            refine ⟨(a.id, ActivityWithStreams.mk a (some s)) :: tw,
              a.id :: tf, ?_, ?_, ?_, ?_⟩
            · rw [hstep, hw, hsw]
              simp
            · rw [hstep, hf, hsf]
              simp
            · intro w hwm
              rcases List.mem_cons.mp hwm with rfl | hwm'
              · exact ⟨hx, by simp⟩
              · exact ⟨(hpw w hwm').1, by simpa using Or.inr (hpw w hwm').2⟩
            · intro i him
              rcases List.mem_cons.mp him with rfl | him'
              · exact ⟨hx, by simp⟩
              · exact ⟨(hpf i him').1, by simpa using Or.inr (hpf i him').2⟩
        | error e =>
            have hsw : (enrichStep env st a).written
                = st.written ++ [(a.id, ActivityWithStreams.mk a none)] := by
              simp [enrichStep, hex, hres]
            have hsf : (enrichStep env st a).streamFetches
                = st.streamFetches ++ [a.id] := by
              simp [enrichStep, hex, hres]
            refine ⟨(a.id, ActivityWithStreams.mk a none) :: tw,
              a.id :: tf, ?_, ?_, ?_, ?_⟩
            · rw [hstep, hw, hsw]
              simp
            · rw [hstep, hf, hsf]
              simp
            · intro w hwm
              rcases List.mem_cons.mp hwm with rfl | hwm'
              · exact ⟨hx, by simp⟩
              · exact ⟨(hpw w hwm').1, by simpa using Or.inr (hpw w hwm').2⟩
            · intro i him
              rcases List.mem_cons.mp him with rfl | him'
              · exact ⟨hx, by simp⟩
              · exact ⟨(hpf i him').1, by simpa using Or.inr (hpf i him').2⟩

theorem enrichAll_index_ids (env : EnrichEnv) :
    ∀ (l : List Activity) (st : EnrichState),
      (enrichAll env st l).index.get_known_ids.Perm
        (l.map (fun a => a.id) ++ st.index.get_known_ids) := by
  intro l
  induction l with
  | nil =>
      intro st
      simp [enrichAll]
  | cons a rest ih =>
      intro st
      have h1 := ih (enrichStep env st a)
      rw [enrichStep_index] at h1
      have h2 := (add_activity_ids_perm st.index a).append_left
        (rest.map (fun a => a.id))
      have h3 : enrichAll env st (a :: rest)
          = enrichAll env (enrichStep env st a) rest := rfl
      rw [h3]
      refine (h1.trans (h2.trans ?_))
      exact List.perm_middle

/-- Claim C3: a candidate whose streams fetch fails (with no detail file
already present and no earlier candidate sharing its id) still gets a detail
record persisted with `streams = none` and still ends up in the index; the
failure aborts neither the remaining candidates nor the record itself. -/
theorem streams_failure_still_persisted (env : EnrichEnv)
    (idx0 : ActivityIndex) (l1 l2 : List Activity) (a : Activity) (e : String)
    (herr : env.streamsResult a.id = .error e)
    (hpre : env.preExisting a.id = false)
    (hbefore : ∀ b ∈ l1, b.id ≠ a.id) :
    (a.id, ActivityWithStreams.mk a none)
        ∈ (enrichAll env (EnrichState.mk idx0 [] []) (l1 ++ a :: l2)).written
    ∧ a.id ∈ (enrichAll env (EnrichState.mk idx0 [] [])
        (l1 ++ a :: l2)).index.get_known_ids := by
  have hsplit : enrichAll env (EnrichState.mk idx0 [] []) (l1 ++ a :: l2)
      = enrichAll env
          (enrichStep env (enrichAll env (EnrichState.mk idx0 [] []) l1) a)
          l2 := by
    unfold enrichAll
    rw [List.foldl_append]
    rfl
  set st1 := enrichAll env (EnrichState.mk idx0 [] []) l1 with hst1
  obtain ⟨tw, tf, hw, hf, hpw, hpf⟩ :=
    enrichAll_written_mono env l1 (EnrichState.mk idx0 [] [])
  have hany : st1.written.any (fun w => w.1 == a.id) = false := by
    rw [← hst1] at hw
    rw [hw]
    simp only [List.nil_append]
    cases hcontra : tw.any (fun w => w.1 == a.id) with
    | false => rfl
    | true =>
        exfalso
        obtain ⟨w, hwm, hweq⟩ := List.any_eq_true.mp hcontra
        have hid : w.1 = a.id := by simpa using hweq
        have := (hpw w hwm).2
        rw [hid] at this
        obtain ⟨b, hbm, hbid⟩ := List.mem_map.mp this
        exact hbefore b hbm hbid
  have hex : activity_file_exists env st1 a.id = false := by
    unfold activity_file_exists
    rw [hpre, hany]
    rfl
  have hexn : ¬ (activity_file_exists env st1 a.id = true) := by
    rw [hex]
    simp
  have hstepw : (enrichStep env st1 a).written
      = st1.written ++ [(a.id, ActivityWithStreams.mk a none)] := by
    simp [enrichStep, hexn, herr]
  obtain ⟨tw2, tf2, hw2, hf2, hpw2, hpf2⟩ :=
    enrichAll_written_mono env l2 (enrichStep env st1 a)
  constructor
  · rw [hsplit, hw2, hstepw]
    simp
  · rw [hsplit]
    have hperm := enrichAll_index_ids env l2 (enrichStep env st1 a)
    rw [hperm.mem_iff]
    rw [enrichStep_index]
    have hperm2 := add_activity_ids_perm st1.index a
    have : a.id ∈ (st1.index.add_activity a).get_known_ids := by
      rw [hperm2.mem_iff]
      simp
    simp only [List.mem_append]
    exact Or.inr this

/-- Concrete enrichment environment for the C3 instantiation: every streams
fetch fails and no detail file pre-exists. -/
def envC3 : EnrichEnv :=
  { streamsResult := fun _ => Except.error ("boom")
    preExisting := fun _ => false }

/-- An empty index (the first-run recovery value of `ActivityIndex::load`,
src/main.rs lines 88-91). -/
def idxEmpty : ActivityIndex := { last_updated := "", activities := [] }

/-- Concrete candidate for the C3 instantiation. -/
def actC3 : Activity := mkAct 7 ("VirtualRide") ("2024-01-01")

/-- Claim C3 witness: with a single candidate whose streams fetch errors,
the run still writes `(7, streams = none)` and id 7 appears in the index. -/
theorem streams_failure_still_persisted_witness :
    (actC3.id, ActivityWithStreams.mk actC3 none)
        ∈ (enrichAll envC3 (EnrichState.mk idxEmpty [] [])
            ([] ++ actC3 :: [])).written
    ∧ actC3.id ∈ (enrichAll envC3 (EnrichState.mk idxEmpty [] [])
        ([] ++ actC3 :: [])).index.get_known_ids :=
  streams_failure_still_persisted envC3 idxEmpty [] [] actC3 ("boom")
    rfl rfl (by simp)

/-- Claim C8: for a candidate whose detail file already exists on disk at
the start of the run, the run never issues a streams fetch for that id and
never writes a file for that id (leaving the existing file untouched), yet
the id still enters the index. -/
theorem existing_file_skips_fetch (env : EnrichEnv) (idx0 : ActivityIndex)
    (cands : List Activity) (a : Activity)
    (hpre : env.preExisting a.id = true) (ha : a ∈ cands) :
    a.id ∉ (enrichAll env (EnrichState.mk idx0 [] []) cands).streamFetches
    ∧ (∀ w ∈ (enrichAll env (EnrichState.mk idx0 [] []) cands).written,
        w.1 ≠ a.id)
    ∧ a.id ∈ (enrichAll env (EnrichState.mk idx0 [] [])
        cands).index.get_known_ids := by
  obtain ⟨tw, tf, hw, hf, hpw, hpf⟩ :=
    enrichAll_written_mono env cands (EnrichState.mk idx0 [] [])
  refine ⟨?_, ?_, ?_⟩
  · rw [hf]
    simp only [List.nil_append]
    intro hmem
    have := (hpf a.id hmem).1
    rw [hpre] at this
    cases this
  · rw [hw]
    simp only [List.nil_append]
    intro w hwm heq
    have := (hpw w hwm).1
    rw [heq, hpre] at this
    cases this
  · have hperm := enrichAll_index_ids env cands (EnrichState.mk idx0 [] [])
    rw [hperm.mem_iff]
    simp only [List.mem_append]
    exact Or.inl (List.mem_map.mpr ⟨a, ha, rfl⟩)

/-- Concrete enrichment environment for the C8 instantiation: every detail
file already exists on disk. -/
def envC8 : EnrichEnv :=
  { streamsResult := fun _ => Except.error ("unused")
    preExisting := fun _ => true }

/-- Concrete candidate for the C8 instantiation. -/
def actC8 : Activity := mkAct 11 ("VirtualRide") ("2024-02-02")

/-- Claim C8 witness: with the detail file for id 11 pre-existing, the run
issues no fetch and no write for id 11 but still indexes it. -/
theorem existing_file_skips_fetch_witness :
    actC8.id ∉ (enrichAll envC8 (EnrichState.mk idxEmpty [] [])
        [actC8]).streamFetches
    ∧ (∀ w ∈ (enrichAll envC8 (EnrichState.mk idxEmpty [] [])
        [actC8]).written, w.1 ≠ actC8.id)
    ∧ actC8.id ∈ (enrichAll envC8 (EnrichState.mk idxEmpty [] [])
        [actC8]).index.get_known_ids :=
  existing_file_skips_fetch envC8 idxEmpty [actC8] actC8 rfl (by simp)

theorem enrichAll_attempted (env : EnrichEnv) :
    ∀ (l : List Activity) (st : EnrichState), ∀ a ∈ l,
      env.preExisting a.id = true
      ∨ ∃ w ∈ (enrichAll env st l).written, w.1 = a.id := by
  intro l
  induction l with
  | nil =>
      intro st a ha
      cases ha
  | cons b rest ih =>
      intro st a ha
      have hstep : enrichAll env st (b :: rest)
          = enrichAll env (enrichStep env st b) rest := rfl
      obtain ⟨tw, tf, hw, hf, hpw, hpf⟩ :=
        enrichAll_written_mono env rest (enrichStep env st b)
      rcases List.mem_cons.mp ha with rfl | hmem
      · by_cases hex : activity_file_exists env st a.id
        · have hor : env.preExisting a.id = true
              ∨ st.written.any (fun w => w.1 == a.id) = true := by
            simpa [activity_file_exists] using hex
          rcases hor with h1 | h2
          · exact Or.inl h1
          · obtain ⟨w, hwm, hweq⟩ := List.any_eq_true.mp h2
            refine Or.inr ⟨w, ?_, by simpa using hweq⟩
            rw [hstep, hw]
            have hsw : (enrichStep env st a).written = st.written := by
              simp [enrichStep, hex]
            rw [hsw]
            exact List.mem_append_left _ hwm
        · have hin : ∃ w ∈ (enrichStep env st a).written, w.1 = a.id := by
            cases hres : env.streamsResult a.id with
            | ok s =>
                refine ⟨(a.id, ActivityWithStreams.mk a (some s)), ?_, rfl⟩
                simp [enrichStep, hex, hres]
            | error e =>
                refine ⟨(a.id, ActivityWithStreams.mk a none), ?_, rfl⟩
                simp [enrichStep, hex, hres]
          obtain ⟨w, hwm, hid⟩ := hin
          refine Or.inr ⟨w, ?_, hid⟩
          rw [hstep, hw]
          exact List.mem_append_left _ hwm
      · exact ih (enrichStep env st b) a hmem

/-- Claim C5: starting from an index with no duplicate ids, with the
known-id snapshot taken from that index, and with no id occurring twice
across the fetched pages, then after enriching any prefix `l1` of the
candidate list the index ids are duplicate-free and are exactly (as a
multiset) the initial ids plus the ids of the processed candidates — each of
which has a detail record pre-existing or written by the run. -/
theorem index_ids_nodup_invariant (pages : Nat → List Activity)
    (env : EnrichEnv) (idx0 : ActivityIndex)
    (hIdx : idx0.get_known_ids.Nodup)
    (hPages : (((syncLoop pages idx0.get_known_ids).requests.flatMap
        pages).map (fun a => a.id)).Nodup)
    (l1 l2 : List Activity)
    (hsplit : (syncLoop pages idx0.get_known_ids).new_zwift_activities
        = l1 ++ l2) :
    ((enrichAll env (EnrichState.mk idx0 [] []) l1).index.get_known_ids).Nodup
    ∧ ((enrichAll env (EnrichState.mk idx0 [] []) l1).index.get_known_ids).Perm
        (l1.map (fun a => a.id) ++ idx0.get_known_ids)
    ∧ ∀ a ∈ l1, env.preExisting a.id = true
        ∨ ∃ w ∈ (enrichAll env (EnrichState.mk idx0 [] []) l1).written,
            w.1 = a.id := by
  obtain ⟨k, d, hk, hreq, hnew, hsub, hnotin⟩ :=
    syncLoopAux_spec pages idx0.get_known_ids 5 1 [] [] 0
  unfold syncLoop at hsplit hPages
  rw [hnew] at hsplit
  simp only [List.nil_append] at hsplit
  rw [hreq] at hPages
  simp only [List.nil_append] at hPages
  have hl1d : l1.Sublist d := by
    rw [hsplit]
    exact List.sublist_append_left l1 l2
  have hl1sub : (l1.map (fun a => a.id)).Sublist
      (((List.range' 1 k).flatMap pages).map (fun a => a.id)) :=
    (hl1d.trans hsub).map (fun a => a.id)
  have hl1nodup : (l1.map (fun a => a.id)).Nodup := hPages.sublist hl1sub
  have hdisj : (l1.map (fun a => a.id)).Disjoint idx0.get_known_ids := by
    intro x hx hx2
    obtain ⟨a, ham, haid⟩ := List.mem_map.mp hx
    have : ¬(a.id ∈ idx0.get_known_ids) := hnotin a (hl1d.mem ham)
    rw [haid] at this
    exact this hx2
  have hrhs : (l1.map (fun a => a.id) ++ idx0.get_known_ids).Nodup :=
    List.Nodup.append hl1nodup hIdx hdisj
  have hperm := enrichAll_index_ids env l1 (EnrichState.mk idx0 [] [])
  refine ⟨?_, hperm, ?_⟩
  · exact (hperm.nodup_iff).mpr hrhs
  · exact enrichAll_attempted env l1 (EnrichState.mk idx0 [] [])

/-- Summary of the already-synced activity 100, for the C5 instantiation. -/
def sumC5 : ActivitySummary :=
  { id := 100, name := ("act"), start_date := ("2024-03-01"), distance := 0,
    moving_time := 0, average_watts := none, average_heartrate := none }

/-- Index holding only id 100, for the C5 instantiation. -/
def idxC5 : ActivityIndex :=
  { last_updated := "", activities := [sumC5] }

/-- Enrichment environment for the C5 instantiation: streams fetches
succeed with an all-absent series, no detail file pre-exists. -/
def envC5 : EnrichEnv :=
  { streamsResult := fun _ =>
      Except.ok (ActivityStreams.mk none none none none none none)
    preExisting := fun _ => false }

/-- The candidate list produced by `pagesC2` against known id 100. -/
def candsC5 : List Activity :=
  [mkAct 105 ("VirtualRide") ("2024-05-01"),
   mkAct 104 ("VirtualRide") ("2024-04-01")]

/-- Claim C5 witness: the §8 scenario (known id 100, page ids 105 104 100
99) leaves the index with duplicate-free ids {105, 104, 100} and a written
record for each processed candidate. -/
theorem index_ids_nodup_invariant_witness :
    ((enrichAll envC5 (EnrichState.mk idxC5 [] [])
        candsC5).index.get_known_ids).Nodup
    ∧ ((enrichAll envC5 (EnrichState.mk idxC5 [] [])
        candsC5).index.get_known_ids).Perm
        (candsC5.map (fun a => a.id) ++ idxC5.get_known_ids)
    ∧ ∀ a ∈ candsC5, envC5.preExisting a.id = true
        ∨ ∃ w ∈ (enrichAll envC5 (EnrichState.mk idxC5 [] [])
            candsC5).written, w.1 = a.id :=
  index_ids_nodup_invariant pagesC2 envC5 idxC5 (by decide) (by decide)
    candsC5 [] (by rfl)

/-- The guard of the inter-activity throttle (src/main.rs line 252):
`i < new_zwift_activities.len() - 1`, with usize (truncated) subtraction. -/
def sleepGuard (new_zwift_activities : List Activity) (i : Nat) : Bool :=
  decide (i < new_zwift_activities.length - 1)

/-- Claim C10: inside the branch guarded by a non-empty candidate list (the
only place the guard is evaluated, and the loop body only runs for indices
below the length), `len() - 1` cannot underflow — the truncated difference
agrees with integer subtraction — and the sleep fires exactly for every
enumeration index except the last one. -/
theorem sleep_guard_no_underflow (new_zwift_activities : List Activity)
    (i : Nat) (hne : new_zwift_activities ≠ [])
    (hi : i < new_zwift_activities.length) :
    ((new_zwift_activities.length : Int) - 1
        = ((new_zwift_activities.length - 1 : Nat) : Int))
    ∧ (sleepGuard new_zwift_activities i = true
        ↔ i ≠ new_zwift_activities.length - 1) := by
  have hlen : 1 ≤ new_zwift_activities.length := by
    cases new_zwift_activities with
    | nil => cases hne rfl
    | cons a l => simp
  constructor
  · omega
  · unfold sleepGuard
    simp only [decide_eq_true_eq]
    omega

/-- Concrete candidates for the C10 instantiation. -/
def candsC10 : List Activity :=
  [mkAct 21 ("VirtualRide") ("2024-03-01"),
   mkAct 22 ("VirtualRide") ("2024-03-02")]

/-- Claim C10 witness: with two candidates, the subtraction is exact and the
sleep fires after the first activity (index 0) only. -/
theorem sleep_guard_no_underflow_witness :
    ((candsC10.length : Int) - 1 = ((candsC10.length - 1 : Nat) : Int))
    ∧ (sleepGuard candsC10 0 = true ↔ 0 ≠ candsC10.length - 1) :=
  sleep_guard_no_underflow candsC10 0 (by simp [candsC10]) (by simp [candsC10])

/-- Model of a `serde_json::Value`: the body of a streams response.  Numbers
keep serde's integer/float distinction (an i32/f64 is deserializable from an
integer number; an i32 is not deserializable from a float number). -/
inductive Json where
  | null
  | bool (b : Bool)
  | int (n : Int)
  | float (x : Float)
  | str (s : String)
  | arr (xs : List Json)
  | obj (fields : List (String × Json))

/-- `serde_json::Value::get` with a string index: a member lookup that
yields `None` on a missing key or a non-object value. -/
def Json.get (j : Json) (key : String) : Option Json :=
  match j with
  | .obj fields => fields.lookup key
  | _ => none

/-- Deserialization of one `i32` element (`from_value` inside
`Vec<i32>`): an in-range integer number, anything else fails. -/
def decodeI32 (j : Json) : Option Int :=
  match j with
  | .int n => if -2147483648 ≤ n ∧ n ≤ 2147483647 then some n else none
  | _ => none

/-- Deserialization of one `f64` element: any number, anything else
fails. -/
def decodeF64 (j : Json) : Option Float :=
  match j with
  | .int n => some (Float.ofInt n)
  | .float x => some x
  | _ => none

/-- Deserialization of a `Vec<_>` from a JSON value: an array whose every
element decodes, anything else fails (`serde_json::from_value(...).ok()`). -/
def decodeVec {α : Type} (dec : Json → Option α) (j : Json) : Option (List α) :=
  match j with
  | .arr xs => xs.mapM dec
  | _ => none

/-- The `data` member of one stream key of the keyed response:
`streams_map.get(key).and_then(|v| v.get("data"))`. -/
def keyData (streams_map : Json) (key : String) : Option Json :=
  (streams_map.get key).bind (fun v => v.get ("data"))

/-- The decoding block of `fetch_activity_streams` (src/main.rs lines
344-363): each of the six stream keys is decoded by its own independent
`get(key) → get("data") → from_value(..).ok()` chain. -/
def parseStreams (streams_map : Json) : ActivityStreams :=
  { time := ((streams_map.get ("time")).bind
        (fun v => v.get ("data"))).bind (decodeVec decodeI32)
    watts := ((streams_map.get ("watts")).bind
        (fun v => v.get ("data"))).bind (decodeVec decodeF64)
    heartrate := ((streams_map.get ("heartrate")).bind
        (fun v => v.get ("data"))).bind (decodeVec decodeI32)
    cadence := ((streams_map.get ("cadence")).bind
        (fun v => v.get ("data"))).bind (decodeVec decodeI32)
    velocity_smooth := ((streams_map.get ("velocity_smooth")).bind
        (fun v => v.get ("data"))).bind (decodeVec decodeF64)
    altitude := ((streams_map.get ("altitude")).bind
        (fun v => v.get ("data"))).bind (decodeVec decodeF64) }

/-- A response from the streams endpoint once its text has been read: the
status code and the result of parsing the text as JSON (`none` models a body
rejected by `serde_json::from_str::<Value>`). -/
structure StreamsResponse where
  status : Nat
  body : Option Json

/-- `reqwest::StatusCode::is_success`: the 2xx range. -/
def statusIsSuccess (status : Nat) : Bool :=
  decide (200 ≤ status) && decide (status < 300)

/-- `fetch_activity_streams` (src/main.rs lines 316-366) after the response
text is in hand: non-success status → `ApiError`; a body that is not valid
JSON → the decode error propagated by the `?` on line 342; otherwise the
leniently decoded `ActivityStreams`. -/
def fetch_activity_streams (resp : StreamsResponse) :
    Except String ActivityStreams :=
  if !statusIsSuccess resp.status then
    Except.error ("API returned status")
  else
    match resp.body with
    | none => Except.error ("invalid JSON body")
    | some streams_map => Except.ok (parseStreams streams_map)

/-- Claim C6: on a success status with a JSON body, the fetch returns `Ok`
whatever the shape of the body (no per-key decode failure propagates as an
error), and each of the six stream fields equals the lenient decode of that
key's `data` member alone — absent or malformed gives `none` — so the six
keys are decoded independently: any other body agreeing on one key's `data`
member yields the same value for that field. -/
theorem streams_keys_decoded_independently (status : Nat)
    (hs : statusIsSuccess status = true) (m : Json) :
    (fetch_activity_streams (StreamsResponse.mk status (some m))
        = Except.ok (parseStreams m))
    ∧ (parseStreams m).time = (keyData m ("time")).bind (decodeVec decodeI32)
    ∧ (parseStreams m).watts = (keyData m ("watts")).bind (decodeVec decodeF64)
    ∧ (parseStreams m).heartrate
        = (keyData m ("heartrate")).bind (decodeVec decodeI32)
    ∧ (parseStreams m).cadence
        = (keyData m ("cadence")).bind (decodeVec decodeI32)
    ∧ (parseStreams m).velocity_smooth
        = (keyData m ("velocity_smooth")).bind (decodeVec decodeF64)
    ∧ (parseStreams m).altitude
        = (keyData m ("altitude")).bind (decodeVec decodeF64)
    ∧ (∀ m2 : Json, keyData m2 ("time") = keyData m ("time") →
        (parseStreams m2).time = (parseStreams m).time)
    ∧ (∀ m2 : Json, keyData m2 ("watts") = keyData m ("watts") →
        (parseStreams m2).watts = (parseStreams m).watts)
    ∧ (∀ m2 : Json, keyData m2 ("heartrate") = keyData m ("heartrate") →
        (parseStreams m2).heartrate = (parseStreams m).heartrate)
    ∧ (∀ m2 : Json, keyData m2 ("cadence") = keyData m ("cadence") →
        (parseStreams m2).cadence = (parseStreams m).cadence)
    ∧ (∀ m2 : Json, keyData m2 ("velocity_smooth")
          = keyData m ("velocity_smooth") →
        (parseStreams m2).velocity_smooth = (parseStreams m).velocity_smooth)
    ∧ (∀ m2 : Json, keyData m2 ("altitude") = keyData m ("altitude") →
        (parseStreams m2).altitude = (parseStreams m).altitude) := by
  have hfetch : fetch_activity_streams (StreamsResponse.mk status (some m))
      = Except.ok (parseStreams m) := by
    simp [fetch_activity_streams, hs]
  refine ⟨hfetch, rfl, rfl, rfl, rfl, rfl, rfl, ?_, ?_, ?_, ?_, ?_, ?_⟩
  all_goals
    intro m2 h
    show (keyData m2 _).bind _ = (keyData m _).bind _
    rw [h]

/-- Body for the C6 instantiation: `time` well-formed, `watts` with a
malformed `data` member, `heartrate` not even an object, the other three
keys absent. -/
def mC6 : Json :=
  Json.obj [("time", Json.obj [("data", Json.arr [Json.int 1, Json.int 2])]),
    ("watts", Json.obj [("data", Json.str ("oops"))]),
    ("heartrate", Json.int 5)]

/-- Claim C6 witness: at status 200 and the mixed body `mC6`, the fetch is
`Ok`, the well-formed key decodes, and the malformed/absent keys are `none`
without failing the others. -/
theorem streams_keys_decoded_independently_witness :
    (fetch_activity_streams (StreamsResponse.mk 200 (some mC6))
        = Except.ok (parseStreams mC6))
    ∧ (parseStreams mC6).time = (keyData mC6 ("time")).bind (decodeVec decodeI32)
    ∧ (parseStreams mC6).watts = (keyData mC6 ("watts")).bind (decodeVec decodeF64)
    ∧ (parseStreams mC6).heartrate
        = (keyData mC6 ("heartrate")).bind (decodeVec decodeI32)
    ∧ (parseStreams mC6).cadence
        = (keyData mC6 ("cadence")).bind (decodeVec decodeI32)
    ∧ (parseStreams mC6).velocity_smooth
        = (keyData mC6 ("velocity_smooth")).bind (decodeVec decodeF64)
    ∧ (parseStreams mC6).altitude
        = (keyData mC6 ("altitude")).bind (decodeVec decodeF64)
    ∧ (∀ m2 : Json, keyData m2 ("time") = keyData mC6 ("time") →
        (parseStreams m2).time = (parseStreams mC6).time)
    ∧ (∀ m2 : Json, keyData m2 ("watts") = keyData mC6 ("watts") →
        (parseStreams m2).watts = (parseStreams mC6).watts)
    ∧ (∀ m2 : Json, keyData m2 ("heartrate") = keyData mC6 ("heartrate") →
        (parseStreams m2).heartrate = (parseStreams mC6).heartrate)
    ∧ (∀ m2 : Json, keyData m2 ("cadence") = keyData mC6 ("cadence") →
        (parseStreams m2).cadence = (parseStreams mC6).cadence)
    ∧ (∀ m2 : Json, keyData m2 ("velocity_smooth")
          = keyData mC6 ("velocity_smooth") →
        (parseStreams m2).velocity_smooth = (parseStreams mC6).velocity_smooth)
    ∧ (∀ m2 : Json, keyData m2 ("altitude") = keyData mC6 ("altitude") →
        (parseStreams m2).altitude = (parseStreams mC6).altitude) :=
  streams_keys_decoded_independently 200 (by decide) mC6

/-- Claim C7 counterexample: a response with the success status 200 whose
body is not valid JSON makes `fetch_activity_streams` return an error (the
`?` on src/main.rs line 342), refuting "for every response with a success
status it returns Ok". -/
theorem fetch_streams_error_despite_success :
    statusIsSuccess 200 = true
    ∧ (fetch_activity_streams (StreamsResponse.mk 200 none)).isOk = false := by
  exact ⟨by decide, rfl⟩

/-- Claim C7 (amended): `fetch_activity_streams` returns `Ok` exactly when
the HTTP status is a success AND the body parses as JSON; it errors on a
non-success status or (even with a success status) on an unparseable
body. -/
theorem fetch_streams_ok_iff (resp : StreamsResponse) :
    (fetch_activity_streams resp).isOk
      = (statusIsSuccess resp.status && resp.body.isSome) := by
  cases hb : resp.body with
  | none =>
      cases hs : statusIsSuccess resp.status with
      | false => simp [fetch_activity_streams, hs, hb, Except.isOk, Except.toBool]
      | true => simp [fetch_activity_streams, hs, hb, Except.isOk, Except.toBool]
  | some m =>
      cases hs : statusIsSuccess resp.status with
      | false => simp [fetch_activity_streams, hs, hb, Except.isOk, Except.toBool]
      | true => simp [fetch_activity_streams, hs, hb, Except.isOk, Except.toBool]
